import Mathlib

/-!
Verification of the safer-skies air-quality pipeline (frontend services).

The definitions below are shallow embeddings of the JavaScript source:
pure functions become Lean functions, JS objects become structures, fields
that may be absent in JS become Option, and the fallible fetch paths are
modelled by an Option-valued upstream input (some = successful API payload,
none = the catch branch).  Components the spec describes but whose code is
not in the repository snapshot (the fusion engine and the alert evaluator
backend) are modelled from the spec, and marked as such.

Layout: all definitions first, then the theorems.
-/

namespace SaferSkies

/- ------------------------------------------------------------------ -/
/- AQI category functions (src/frontend/src/utils/aqiUtils.js,         -/
/- and the three service classes).                                     -/
/- ------------------------------------------------------------------ -/

namespace aqiUtils

/-- Embeds getAQIStatus from src/frontend/src/utils/aqiUtils.js (lines 24-31). -/
def getAQIStatus (aqi : Int) : String :=
  if aqi ≤ 50 then "Good"
  else if aqi ≤ 100 then "Moderate"
  else if aqi ≤ 150 then "Unhealthy for Sensitive Groups"
  else if aqi ≤ 200 then "Unhealthy"
  else if aqi ≤ 300 then "Very Unhealthy"
  else "Hazardous"

end aqiUtils

namespace AQIDataService

/-- Embeds AQIDataService.getAQICategory (src/unnamed/part_006 lines 346-353;
the wrapper class in src/unnamed/part_009 lines 79-86 has the identical body). -/
def getAQICategory (aqi : Int) : String :=
  if aqi ≤ 50 then "Good"
  else if aqi ≤ 100 then "Moderate"
  else if aqi ≤ 150 then "Unhealthy for Sensitive Groups"
  else if aqi ≤ 200 then "Unhealthy"
  else if aqi ≤ 300 then "Very Unhealthy"
  else "Hazardous"

end AQIDataService

namespace UnifiedAQIService

/-- Embeds UnifiedAQIService.getAQICategory (src/unnamed/part_004 lines 489-496). -/
def getAQICategory (aqi : Int) : String :=
  if aqi ≤ 50 then "Good"
  else if aqi ≤ 100 then "Moderate"
  else if aqi ≤ 150 then "Unhealthy for Sensitive Groups"
  else if aqi ≤ 200 then "Unhealthy"
  else if aqi ≤ 300 then "Very Unhealthy"
  else "Hazardous"

end UnifiedAQIService

namespace ForecastService

/-- Embeds ForecastService.getAQICategory (src/unnamed/part_007 lines 301-308). -/
def getAQICategory (aqi : Int) : String :=
  if aqi ≤ 50 then "Good"
  else if aqi ≤ 100 then "Moderate"
  else if aqi ≤ 150 then "Unhealthy for Sensitive Groups"
  else if aqi ≤ 200 then "Unhealthy"
  else if aqi ≤ 300 then "Very Unhealthy"
  else "Hazardous"

end ForecastService

/- ------------------------------------------------------------------ -/
/- JS Math.max / Math.min over a spread list of numbers.               -/
/- ------------------------------------------------------------------ -/

/-- Embeds JS Math.max(...values) over a non-empty list (0 on the empty
list, which no modelled call reaches). -/
def listMax : List Int → Int
  | [] => 0
  | x :: xs => xs.foldl max x

/-- Embeds JS Math.min(...values) over a non-empty list (0 on the empty
list, which no modelled call reaches). -/
def listMin : List Int → Int
  | [] => 0
  | x :: xs => xs.foldl min x

/- ------------------------------------------------------------------ -/
/- AQIDataService.generateDemoAQI aggregation                          -/
/- (src/unnamed/part_006 lines 295-328).                               -/
/- ------------------------------------------------------------------ -/

/-- Embeds JS String.prototype.toUpperCase for the ASCII strings the demo
code applies it to (pollutant keys): map each lowercase ASCII letter to its
uppercase counterpart. -/
def jsToUpperCase (s : String) : String :=
  String.mk (s.data.map (fun c =>
    if 'a' ≤ c ∧ c ≤ 'z' then Char.ofNat (c.toNat - 32) else c))

/-- The per-pollutant AQI sub-index map built by generateDemoAQI: a JS
object literal with keys in insertion order pm25, pm10, o3, no2, so2, co. -/
structure DemoPollutants where
  pm25 : Int
  pm10 : Int
  o3 : Int
  no2 : Int
  so2 : Int
  co : Int
deriving DecidableEq

namespace AQIDataService

/-- Object.values(pollutants) in JS key insertion order. -/
def demoValues (p : DemoPollutants) : List Int :=
  [p.pm25, p.pm10, p.o3, p.no2, p.so2, p.co]

/-- Object.keys/values pairs of the pollutants object, in insertion order. -/
def demoKeyVals (p : DemoPollutants) : List (String × Int) :=
  [("pm25", p.pm25), ("pm10", p.pm10), ("o3", p.o3),
   ("no2", p.no2), ("so2", p.so2), ("co", p.co)]

/-- Embeds `const currentAQI = Math.max(...Object.values(pollutants))`
(src/unnamed/part_006 line 307). -/
def demoOverallAQI (p : DemoPollutants) : Int :=
  listMax (demoValues p)

/-- Embeds `Object.keys(pollutants).find(key => pollutants[key] === currentAQI)`
followed by `?.toUpperCase()` (src/unnamed/part_006 lines 309 and 320). -/
def demoDominantPollutant (p : DemoPollutants) : Option String :=
  ((demoKeyVals p).find? (fun kv => kv.2 == demoOverallAQI p)).map
    (fun kv => jsToUpperCase kv.1)

end AQIDataService

/-- Follows the spec's words only (for comparison with the code): dominant
pollutant with ties broken by EPA priority order O3 > PM2.5 > PM10 > CO >
SO2 > NO2. -/
def specEpaDominantPollutant (p : DemoPollutants) : Option String :=
  (([("O3", p.o3), ("PM25", p.pm25), ("PM10", p.pm10),
     ("CO", p.co), ("SO2", p.so2), ("NO2", p.no2)]).find?
    (fun kv => kv.2 == AQIDataService.demoOverallAQI p)).map Prod.fst

/- ------------------------------------------------------------------ -/
/- Retrieval results and fallback paths                                -/
/- (src/unnamed/part_004 UnifiedAQIService, src/unnamed/part_009       -/
/- AQIDataService wrapper, src/unnamed/part_007 ForecastService).      -/
/- ------------------------------------------------------------------ -/

/-- The aqi part of the result object the services build: a JS record whose
numeric field may be absent (none models a missing/null value; the code in
src never leaves it absent, which is what claim C2 is about). -/
structure AQIResult where
  aqi_value : Option Int
  aqi_category : String
  health_message : String
deriving DecidableEq

namespace UnifiedAQIService

/-- Embeds the success-path aqi object of UnifiedAQIService.fetchLocationData
and fetchLocationDataFast (src/unnamed/part_004 lines 289-296 and 376-383):
value from the API payload, category computed from it, message passed
through. -/
def buildAQIResult (v : Int) (msg : String) : AQIResult :=
  { aqi_value := some v
    aqi_category := getAQICategory v
    health_message := msg }

/-- Embeds the aqi part of UnifiedAQIService.getFallbackData
(src/unnamed/part_004 lines 513-546). -/
def getFallbackData : AQIResult :=
  { aqi_value := some 50
    aqi_category := "Moderate"
    health_message := "Data temporarily unavailable" }

/-- Embeds UnifiedAQIService.fetchLocationData (src/unnamed/part_004 lines
363-415): the upstream payload is some (value, message) on success; the
catch branch returns getFallbackData. -/
def fetchLocationData (api : Option (Int × String)) : AQIResult :=
  match api with
  | some (v, msg) => buildAQIResult v msg
  | none => getFallbackData

end UnifiedAQIService

namespace AQIDataService

/-- Embeds the aqi part of AQIDataService.getFallbackAQIData
(src/unnamed/part_009 lines 56-74). -/
def getFallbackAQIData : AQIResult :=
  { aqi_value := some 50
    aqi_category := "Moderate"
    health_message := "Data temporarily unavailable" }

/-- Embeds AQIDataService.getCurrentAQI (src/unnamed/part_009 lines 20-51):
on success it copies the unified service's aqi fields unchanged; the catch
branch returns getFallbackAQIData. -/
def getCurrentAQI (unified : Option AQIResult) : AQIResult :=
  match unified with
  | some u =>
    { aqi_value := u.aqi_value
      aqi_category := u.aqi_category
      health_message := u.health_message }
  | none => getFallbackAQIData

end AQIDataService

/-- One day of the hard-coded fallback forecast
(src/unnamed/part_007 lines 200-222). -/
structure FallbackDay where
  day : Nat
  maxAqi : Int
  minAqi : Int
  avgAqi : Int
  category : String
deriving DecidableEq

/-- The object returned by ForecastService.getFallbackForecast
(src/unnamed/part_007 lines 194-235): 5 fixed days, empty hourly list,
summary totalHours 0 and dataQuality loading. -/
structure FallbackForecast where
  daily : List FallbackDay
  hourlyLength : Nat
  totalHours : Nat
  totalDays : Nat
  dataQuality : String
deriving DecidableEq

namespace ForecastService

/-- Embeds ForecastService.getFallbackForecast (src/unnamed/part_007 lines
194-235): a loop i = 0..4 pushing a fixed day with aqi max 50, min 30,
avg 40, category Good; hourly is empty and the summary reports totalHours 0,
totalDays 5, dataQuality loading. -/
def getFallbackForecast : FallbackForecast :=
  { daily := (List.range 5).map (fun i =>
      { day := i, maxAqi := 50, minAqi := 30, avgAqi := 40, category := "Good" })
    hourlyLength := 0
    totalHours := 0
    totalDays := 5
    dataQuality := "loading" }

end ForecastService

/- ------------------------------------------------------------------ -/
/- AlertSetupModal.handlePollutantToggle                               -/
/- (src/unnamed/part_009 lines 563-583).                               -/
/- ------------------------------------------------------------------ -/

namespace AlertSetupModal

/-- Embeds handlePollutantToggle (src/unnamed/part_009 lines 563-583): the
state updater applied to the previous pollutants list when the user toggles
a pollutant chip. -/
def handlePollutantToggle (prev : List String) (pollutant : String) : List String :=
  if pollutant = "all" then
    ["all"]
  else
    let newPollutants :=
      if "all" ∈ prev then
        [pollutant]
      else if pollutant ∈ prev then
        prev.filter (fun q => q != pollutant)
      else
        (prev.filter (fun q => q != "all")) ++ [pollutant]
    if newPollutants.length = 0 then ["all"] else newPollutants

/-- The initial selection of the modal (src/unnamed/part_009 line 389). -/
def initialPollutants : List String := ["all"]

/-- A sequence of toggle clicks applied in order. -/
def applyToggles (start : List String) (clicks : List String) : List String :=
  clicks.foldl handlePollutantToggle start

/-- The invariant of claim C10: the list is never empty, and the value all
appears only as its sole element. -/
def PollutantInv (l : List String) : Prop :=
  l ≠ [] ∧ ("all" ∈ l → l = ["all"])

end AlertSetupModal

/- ------------------------------------------------------------------ -/
/- ForecastService.transformHourlyToDaily                              -/
/- (src/unnamed/part_007 lines 245-299) and                            -/
/- ForecastService.getForecastByLocation (lines 35-54).                -/
/- ------------------------------------------------------------------ -/

/-- One hourly forecast record as consumed by transformHourlyToDaily:
an hour index and an AQI value. -/
structure HourRec where
  hour : Nat
  aqi : Int
deriving DecidableEq

namespace ForecastService

/-- Embeds `hour.aqi || 50` (src/unnamed/part_007 line 273): a falsy AQI
(0 for a present number) is replaced by 50. -/
def aqiOrDefault (a : Int) : Int := if a = 0 then 50 else a

/-- Embeds `Math.floor((hour.hour || 0) / 24)` (src/unnamed/part_007 lines
251-252): the day index a record is assigned to. -/
def dayIndexOf (r : HourRec) : Nat := r.hour / 24

/-- The records of a list assigned to a given day index. -/
def assignedTo (ps : List HourRec) (day : Nat) : List HourRec :=
  ps.filter (fun r => dayIndexOf r == day)

/-- One entry of the dailyMap while it is being built: day index, pushed
aqi values in arrival order, and the hourly count. -/
structure DayAcc where
  day : Nat
  aqiValues : List Int
  hourlyCount : Nat
deriving DecidableEq

/-- Embeds one iteration of the forEach over hourlyData (src/unnamed/part_007
lines 250-275): insert a fresh map entry when the day key is new, then push
the (defaulted) aqi value and bump the count.  The JS Map preserves insertion
order, modelled by an association list. -/
def pushHour (acc : List DayAcc) (r : HourRec) : List DayAcc :=
  if acc.any (fun g => g.day == dayIndexOf r) then
    acc.map (fun g =>
      if g.day == dayIndexOf r then
        { g with aqiValues := g.aqiValues ++ [aqiOrDefault r.aqi],
                 hourlyCount := g.hourlyCount + 1 }
      else g)
  else
    acc ++ [{ day := dayIndexOf r, aqiValues := [aqiOrDefault r.aqi],
              hourlyCount := 1 }]

/-- Embeds JS `Math.round(sum / len)` for an integer sum and positive
length: round half toward positive infinity, i.e. the floor of
sum/len + 1/2. -/
def avgRound (vals : List Int) : Int :=
  Int.fdiv (2 * vals.sum + vals.length) (2 * vals.length)

/-- One finished day object (src/unnamed/part_007 lines 277-298, the fields
claim C7 is about). -/
structure DayGroup where
  day : Nat
  aqiValues : List Int
  hourlyCount : Nat
  maxAqi : Int
  minAqi : Int
  avgAqi : Int
deriving DecidableEq

/-- Embeds the final map over the dailyMap values (src/unnamed/part_007
lines 277-298): max, min and rounded average of the day's pushed values. -/
def finalizeDay (g : DayAcc) : DayGroup :=
  { day := g.day
    aqiValues := g.aqiValues
    hourlyCount := g.hourlyCount
    maxAqi := listMax g.aqiValues
    minAqi := listMin g.aqiValues
    avgAqi := avgRound g.aqiValues }

/-- Embeds ForecastService.transformHourlyToDaily (src/unnamed/part_007
lines 245-299). -/
def transformHourlyToDaily (records : List HourRec) : List DayGroup :=
  (records.foldl pushHour []).map finalizeDay

/-- The success-path result of ForecastService.getForecastByLocation
(src/unnamed/part_007 lines 41-54): the hourly records pass through, daily
is their aggregation, and the summary reports totalHours = record count and
a hard-coded totalDays = 5. -/
structure ForecastResult where
  hourly : List HourRec
  daily : List DayGroup
  totalHours : Nat
  totalDays : Nat
deriving DecidableEq

/-- Embeds the success branch of getForecastByLocation
(src/unnamed/part_007 lines 35-54). -/
def getForecastByLocationSuccess (hourlyData : List HourRec) : ForecastResult :=
  { hourly := hourlyData
    daily := transformHourlyToDaily hourlyData
    totalHours := hourlyData.length
    totalDays := 5 }

/-- The invariant tying the dailyMap accumulator to the processed prefix. -/
def AccInv (ps : List HourRec) (acc : List DayAcc) : Prop :=
  (∀ g ∈ acc,
    g.aqiValues = (assignedTo ps g.day).map (fun r => aqiOrDefault r.aqi) ∧
    g.hourlyCount = (assignedTo ps g.day).length) ∧
  (∀ r ∈ ps, ∃ g ∈ acc, g.day = dayIndexOf r) ∧
  (∀ g ∈ acc, ∃ r ∈ ps, dayIndexOf r = g.day) ∧
  (acc.map DayAcc.day).Nodup

end ForecastService

/- ------------------------------------------------------------------ -/
/- Fusion Engine weight renormalization (spec section 4.2) and the     -/
/- Alert Evaluator policies (spec section 4.6) — backend code absent   -/
/- from the repository snapshot, modelled from the spec.               -/
/- ------------------------------------------------------------------ -/

/-- Modelled from the spec: the Fusion Engine is missing from the repository
snapshot (src only shows the UI description of the weighted fusion with
automatic weight normalization); each present source keeps its base weight
divided by the sum of the base weights of the present subset. -/
def renormalizedWeights (present : List (String × ℚ)) : List ℚ :=
  present.map (fun sw => sw.2 / (present.map Prod.snd).sum)

/-- Modelled from the spec: the once_daily frequency policy of the Alert
Evaluator, whose backend is missing from the repository snapshot (src only
contains the AlertSetupModal default offering the once_daily option);
permits a send only when last_sent_at is more than 24 hours in the past. -/
def onceDailyPermits (lastSentAt : Option Int) (now : Int) : Bool :=
  match lastSentAt with
  | none => true
  | some t => decide (now - t > 24)

/-- Modelled from the spec: processing a time-ordered sequence of threshold
crossings under the once_daily policy, recording last_sent_at whenever an
intent is emitted; returns the timestamps of the emitted intents. -/
def runOnceDaily (lastSentAt : Option Int) : List Int → List Int
  | [] => []
  | t :: ts =>
    if onceDailyPermits lastSentAt t then t :: runOnceDaily (some t) ts
    else runOnceDaily lastSentAt ts

/-- Modelled from the spec: the severity categories the Alert Evaluator
compares against quiet hours. -/
inductive AQICategoryLevel
  | good
  | moderate
  | unhealthySensitive
  | unhealthy
  | veryUnhealthy
  | hazardous
deriving DecidableEq

/-- Modelled from the spec: emergency-tier categories (very_unhealthy and
hazardous) always bypass quiet hours. -/
def bypassesQuietHours : AQICategoryLevel → Bool
  | .veryUnhealthy => true
  | .hazardous => true
  | _ => false

/-- Modelled from the spec and the UI defaults (src/unnamed/part_009 lines
402-406, start 22:00 and end 07:00): whether a minute-of-day lies in the
quiet-hours window, wrapping past midnight when start exceeds end. -/
def inQuietWindow (startMin endMin nowMin : Nat) : Bool :=
  if startMin ≤ endMin then
    decide (startMin ≤ nowMin) && decide (nowMin < endMin)
  else
    decide (startMin ≤ nowMin) || decide (nowMin < endMin)

/-- Modelled from the spec: the Alert Evaluator phases
Quiet, Armed, Fired, Cooldown. -/
inductive AlertPhase
  | Quiet
  | Armed
  | Fired
  | Cooldown
deriving DecidableEq

/-- Modelled from the spec: one evaluation step from the Armed phase — a
threshold crossing with a permitting frequency policy fires and emits an
intent, unless the current time is in quiet hours and the severity is below
the emergency tier, in which case the send is suppressed and the phase
stays Armed. -/
def evalArmedStep (crossed permits quietNow : Bool) (cat : AQICategoryLevel) :
    AlertPhase × Bool :=
  if crossed && permits then
    if quietNow && !(bypassesQuietHours cat) then (AlertPhase.Armed, false)
    else (AlertPhase.Fired, true)
  else (AlertPhase.Armed, false)

/- ================================================================== -/
/- Theorems.                                                           -/
/- ================================================================== -/

theorem foldl_max_mem (xs : List Int) (a : Int) :
    xs.foldl max a = a ∨ xs.foldl max a ∈ xs := by
  induction xs generalizing a with
  | nil => exact Or.inl rfl
  | cons x xs ih =>
    simp only [List.foldl_cons]
    rcases ih (max a x) with h | h
    · rcases max_choice a x with ha | hx
      · rw [h, ha]; exact Or.inl rfl
      · rw [h, hx]; exact Or.inr (List.mem_cons_self x xs)
    · exact Or.inr (List.mem_cons_of_mem x h)

theorem le_foldl_max (xs : List Int) (a : Int) :
    a ≤ xs.foldl max a ∧ ∀ y ∈ xs, y ≤ xs.foldl max a := by
  induction xs generalizing a with
  | nil => refine ⟨le_refl a, ?_⟩; intro y hy; cases hy
  | cons x xs ih =>
    obtain ⟨h1, h2⟩ := ih (max a x)
    simp only [List.foldl_cons]
    refine ⟨le_trans (le_max_left a x) h1, ?_⟩
    intro y hy
    rcases List.mem_cons.mp hy with hy | hy
    · rw [hy]; exact le_trans (le_max_right a x) h1
    · exact h2 y hy

theorem listMax_mem (x : Int) (xs : List Int) : listMax (x :: xs) ∈ x :: xs := by
  simp only [listMax]
  rcases foldl_max_mem xs x with h | h
  · rw [h]; exact List.mem_cons_self x xs
  · exact List.mem_cons_of_mem x h

theorem listMax_ge (x : Int) (xs : List Int) :
    ∀ y ∈ x :: xs, y ≤ listMax (x :: xs) := by
  intro y hy
  simp only [listMax]
  rcases List.mem_cons.mp hy with hy | hy
  · rw [hy]; exact (le_foldl_max xs x).1
  · exact (le_foldl_max xs x).2 y hy

theorem exists_find?_of_mem {α : Type} (l : List α) (p : α → Bool) (x : α)
    (hx : x ∈ l) (hp : p x = true) : ∃ r, l.find? p = some r := by
  induction l with
  | nil => cases hx
  | cons a l ih =>
    by_cases ha : p a = true
    · exact ⟨a, List.find?_cons_of_pos l ha⟩
    · rw [List.find?_cons_of_neg l (by simpa using ha)]
      rcases List.mem_cons.mp hx with h | h
      · exact absurd (h ▸ hp) ha
      · exact ih h

/-- Claim C3: on the integer 0-500 AQI scale, getAQIStatus returns Good iff
v ≤ 50, Moderate iff 50 < v ≤ 100, Unhealthy for Sensitive Groups iff
100 < v ≤ 150, Unhealthy iff 150 < v ≤ 200, Very Unhealthy iff
200 < v ≤ 300, and Hazardous otherwise; in particular 112 maps to
Unhealthy for Sensitive Groups. -/
theorem getAQIStatus_category_bands :
    (∀ v : Int, 0 ≤ v → v ≤ 500 →
      ((aqiUtils.getAQIStatus v = "Good" ↔ v ≤ 50) ∧
       (aqiUtils.getAQIStatus v = "Moderate" ↔ (50 < v ∧ v ≤ 100)) ∧
       (aqiUtils.getAQIStatus v = "Unhealthy for Sensitive Groups" ↔
         (100 < v ∧ v ≤ 150)) ∧
       (aqiUtils.getAQIStatus v = "Unhealthy" ↔ (150 < v ∧ v ≤ 200)) ∧
       (aqiUtils.getAQIStatus v = "Very Unhealthy" ↔ (200 < v ∧ v ≤ 300)) ∧
       (aqiUtils.getAQIStatus v = "Hazardous" ↔ 300 < v))) ∧
    aqiUtils.getAQIStatus 112 = "Unhealthy for Sensitive Groups" := by
  constructor
  · intro v h0 h500
    unfold aqiUtils.getAQIStatus
    split_ifs with h1 h2 h3 h4 h5 <;>
      refine ⟨?_, ?_, ?_, ?_, ?_, ?_⟩ <;> simp <;> omega
  · rfl

/-- Witness for getAQIStatus_category_bands at v = 112. -/
theorem getAQIStatus_category_bands_witness :
    aqiUtils.getAQIStatus 112 = "Unhealthy for Sensitive Groups" ↔
      ((100 : Int) < 112 ∧ (112 : Int) ≤ 150) :=
  (getAQIStatus_category_bands.1 112 (by decide) (by decide)).2.2.1

/-- Claim C1 counterexample: on the sub-index map pm25 = 40, pm10 = 10,
o3 = 40, no2 = 10, so2 = 10, co = 10 (a tie between PM2.5 and O3 at the
maximum), generateDemoAQI picks PM25 (JS object-key insertion order) while
the EPA priority order of the claim picks O3, so the claim as stated is
false. -/
theorem demoDominant_not_epa_order :
    ¬ (∀ p : DemoPollutants,
        AQIDataService.demoDominantPollutant p = specEpaDominantPollutant p) := by
  intro h
  have hc := h ⟨40, 10, 40, 10, 10, 10⟩
  have h1 : AQIDataService.demoDominantPollutant ⟨40, 10, 40, 10, 10, 10⟩ =
      some "PM25" := by decide
  have h2 : specEpaDominantPollutant ⟨40, 10, 40, 10, 10, 10⟩ =
      some "O3" := by decide
  rw [h1, h2] at hc
  exact absurd hc (by decide)

/-- Claim C1 amended: in generateDemoAQI the overall AQI equals the maximum
of the sub-indices (it is one of them and bounds them all), and the dominant
pollutant is a pollutant achieving that maximum, but ties are broken by JS
object-key insertion order pm25 > pm10 > o3 > no2 > so2 > co, not by the EPA
priority order. -/
theorem demoOverallAQI_max_dominant (p : DemoPollutants) :
    (AQIDataService.demoOverallAQI p ∈ AQIDataService.demoValues p ∧
      ∀ v ∈ AQIDataService.demoValues p, v ≤ AQIDataService.demoOverallAQI p) ∧
    (∃ kv, (AQIDataService.demoKeyVals p).find?
        (fun kv => kv.2 == AQIDataService.demoOverallAQI p) = some kv ∧
      kv.2 = AQIDataService.demoOverallAQI p ∧
      AQIDataService.demoDominantPollutant p = some (jsToUpperCase kv.1)) := by
  have hmem : AQIDataService.demoOverallAQI p ∈ AQIDataService.demoValues p :=
    listMax_mem p.pm25 [p.pm10, p.o3, p.no2, p.so2, p.co]
  have hge : ∀ v ∈ AQIDataService.demoValues p,
      v ≤ AQIDataService.demoOverallAQI p :=
    listMax_ge p.pm25 [p.pm10, p.o3, p.no2, p.so2, p.co]
  refine ⟨⟨hmem, hge⟩, ?_⟩
  have hkv : ∃ kv ∈ AQIDataService.demoKeyVals p,
      (kv.2 == AQIDataService.demoOverallAQI p) = true := by
    simp only [AQIDataService.demoValues, List.mem_cons, List.not_mem_nil,
      or_false] at hmem
    rcases hmem with h | h | h | h | h | h
    · exact ⟨("pm25", p.pm25), by simp [AQIDataService.demoKeyVals], by simp [h]⟩
    · exact ⟨("pm10", p.pm10), by simp [AQIDataService.demoKeyVals], by simp [h]⟩
    · exact ⟨("o3", p.o3), by simp [AQIDataService.demoKeyVals], by simp [h]⟩
    · exact ⟨("no2", p.no2), by simp [AQIDataService.demoKeyVals], by simp [h]⟩
    · exact ⟨("so2", p.so2), by simp [AQIDataService.demoKeyVals], by simp [h]⟩
    · exact ⟨("co", p.co), by simp [AQIDataService.demoKeyVals], by simp [h]⟩
  obtain ⟨kv0, hkv0, hp0⟩ := hkv
  obtain ⟨r, hr⟩ := exists_find?_of_mem (AQIDataService.demoKeyVals p)
    (fun kv => kv.2 == AQIDataService.demoOverallAQI p) kv0 hkv0 hp0
  refine ⟨r, hr, ?_, ?_⟩
  · have := List.find?_some hr
    exact beq_iff_eq.mp this
  · simp [AQIDataService.demoDominantPollutant, hr]

/-- Claim C2 counterexample: when the upstream source fails (none), the
retrieval operations do not return a gap distinguishable by a missing
numeric AQI; UnifiedAQIService.fetchLocationData returns an invented AQI of
50, and ForecastService.getFallbackForecast returns five invented daily AQI
triples max 50 / min 30 / avg 40, so the claim as stated is false. -/
theorem fallback_invents_numeric_aqi :
    ¬ ((UnifiedAQIService.fetchLocationData none).aqi_value = none) ∧
    (UnifiedAQIService.fetchLocationData none).aqi_value = some 50 ∧
    (AQIDataService.getCurrentAQI none).aqi_value = some 50 ∧
    (ForecastService.getFallbackForecast.daily.map FallbackDay.maxAqi) =
      [50, 50, 50, 50, 50] := by
  refine ⟨by decide, rfl, rfl, by decide⟩

/-- Claim C2 amended: on upstream failure the retrieval operations return
fixed fallback objects that do contain default numeric AQI values (current
AQI 50 with category Moderate in both services; a forecast of five days
with max 50, min 30, avg 40, category Good); unavailability is signalled
only through message and status fields (health message Data temporarily
unavailable, forecast summary totalHours 0 and dataQuality loading), never
by omitting the numeric value. -/
theorem fallback_shape :
    UnifiedAQIService.fetchLocationData none = UnifiedAQIService.getFallbackData ∧
    UnifiedAQIService.getFallbackData.aqi_value = some 50 ∧
    UnifiedAQIService.getFallbackData.aqi_category = "Moderate" ∧
    UnifiedAQIService.getFallbackData.health_message =
      "Data temporarily unavailable" ∧
    AQIDataService.getCurrentAQI none = AQIDataService.getFallbackAQIData ∧
    AQIDataService.getFallbackAQIData.aqi_value = some 50 ∧
    AQIDataService.getFallbackAQIData.health_message =
      "Data temporarily unavailable" ∧
    ForecastService.getFallbackForecast.daily =
      [⟨0, 50, 30, 40, "Good"⟩, ⟨1, 50, 30, 40, "Good"⟩, ⟨2, 50, 30, 40, "Good"⟩,
       ⟨3, 50, 30, 40, "Good"⟩, ⟨4, 50, 30, 40, "Good"⟩] ∧
    ForecastService.getFallbackForecast.totalHours = 0 ∧
    ForecastService.getFallbackForecast.dataQuality = "loading" := by
  refine ⟨rfl, rfl, rfl, rfl, rfl, rfl, rfl, by decide, rfl, rfl⟩

/-- Claim C9 counterexample: not every result object has its category field
equal to the service's own getAQICategory applied to its numeric AQI value;
the fallback object carries value 50 with hard-coded category Moderate,
while getAQICategory 50 = Good. -/
theorem fallback_category_mismatch :
    ¬ (∀ (api : Option (Int × String)) (v : Int),
        (UnifiedAQIService.fetchLocationData api).aqi_value = some v →
        (UnifiedAQIService.fetchLocationData api).aqi_category =
          UnifiedAQIService.getAQICategory v) := by
  intro h
  have hc := h none 50 rfl
  exact absurd hc (by decide)

/-- Claim C9 amended: on every success path the category field equals the
service's own getAQICategory applied to the numeric AQI value, and the
AQIDataService wrapper preserves both fields; but on the error-fallback
paths both services hard-code value 50 with category Moderate, which
differs from getAQICategory 50 = Good. -/
theorem category_invariant_success_only :
    (∀ (v : Int) (msg : String),
      (UnifiedAQIService.fetchLocationData (some (v, msg))).aqi_value = some v ∧
      (UnifiedAQIService.fetchLocationData (some (v, msg))).aqi_category =
        UnifiedAQIService.getAQICategory v) ∧
    (∀ u : AQIResult,
      (AQIDataService.getCurrentAQI (some u)).aqi_value = u.aqi_value ∧
      (AQIDataService.getCurrentAQI (some u)).aqi_category = u.aqi_category) ∧
    (UnifiedAQIService.fetchLocationData none).aqi_value = some 50 ∧
    (UnifiedAQIService.fetchLocationData none).aqi_category = "Moderate" ∧
    (AQIDataService.getCurrentAQI none).aqi_value = some 50 ∧
    (AQIDataService.getCurrentAQI none).aqi_category = "Moderate" ∧
    UnifiedAQIService.getAQICategory 50 = "Good" := by
  exact ⟨fun v msg => ⟨rfl, rfl⟩, fun u => ⟨rfl, rfl⟩, rfl, rfl, rfl, rfl, rfl⟩

namespace AlertSetupModal

theorem handlePollutantToggle_inv (prev : List String) (p : String)
    (h : PollutantInv prev) : PollutantInv (handlePollutantToggle prev p) := by
  obtain ⟨hne, hall⟩ := h
  unfold handlePollutantToggle
  by_cases hp : p = "all"
  · simp only [if_pos hp]
    exact ⟨by simp, fun _ => rfl⟩
  · simp only [if_neg hp]
    by_cases hprev : "all" ∈ prev
    · simp only [if_pos hprev]
      have : ([p].length = 0) = False := by simp
      simp only [this, if_false, List.length_cons, List.length_nil]
      refine ⟨by simp, fun hmem => ?_⟩
      exact absurd (List.mem_singleton.mp hmem).symm hp
    · simp only [if_neg hprev]
      by_cases hin : p ∈ prev
      · simp only [if_pos hin]
        by_cases hlen : (prev.filter (fun q => q != p)).length = 0
        · simp only [if_pos hlen]
          exact ⟨by simp, fun _ => rfl⟩
        · simp only [if_neg hlen]
          refine ⟨fun hnil => hlen (by rw [hnil]; rfl), fun hmem => ?_⟩
          have := List.mem_filter.mp hmem
          exact absurd this.1 hprev
      · simp only [if_neg hin]
        have hlen : ((prev.filter (fun q => q != "all")) ++ [p]).length ≠ 0 := by
          simp
        simp only [if_neg hlen]
        refine ⟨by simp, fun hmem => ?_⟩
        rcases List.mem_append.mp hmem with hmem | hmem
        · have := List.mem_filter.mp hmem
          have hfalse : ("all" != "all") = true := this.2
          simp at hfalse
        · exact absurd (List.mem_singleton.mp hmem).symm hp

theorem applyToggles_inv (clicks : List String) (start : List String)
    (h : PollutantInv start) : PollutantInv (applyToggles start clicks) := by
  induction clicks generalizing start with
  | nil => exact h
  | cons c cs ih => exact ih _ (handlePollutantToggle_inv start c h)

end AlertSetupModal

/-- Claim C10: starting from the initial selection [all], after any
sequence of handlePollutantToggle operations the pollutant filter list is
never empty, and all appears in the list only as its sole element. -/
theorem pollutant_toggle_invariant (clicks : List String) :
    AlertSetupModal.applyToggles AlertSetupModal.initialPollutants clicks ≠ [] ∧
    ("all" ∈ AlertSetupModal.applyToggles AlertSetupModal.initialPollutants clicks →
      AlertSetupModal.applyToggles AlertSetupModal.initialPollutants clicks =
        ["all"]) :=
  AlertSetupModal.applyToggles_inv clicks AlertSetupModal.initialPollutants
    ⟨by simp [AlertSetupModal.initialPollutants], fun _ => rfl⟩

/-- Witness for pollutant_toggle_invariant: toggling PM25 twice from the
initial selection lands back on [all], which does contain all and is the
singleton the theorem requires. -/
theorem pollutant_toggle_invariant_witness :
    AlertSetupModal.applyToggles AlertSetupModal.initialPollutants
      ["PM25", "PM25"] = ["all"] ∧
    AlertSetupModal.applyToggles AlertSetupModal.initialPollutants
      ["PM25", "O3"] ≠ [] :=
  ⟨(pollutant_toggle_invariant ["PM25", "PM25"]).2 (by decide),
   (pollutant_toggle_invariant ["PM25", "O3"]).1⟩

namespace ForecastService

theorem assignedTo_append_match (ps : List HourRec) (r : HourRec) (day : Nat)
    (h : dayIndexOf r = day) :
    assignedTo (ps ++ [r]) day = assignedTo ps day ++ [r] := by
  simp [assignedTo, List.filter_append, h]

theorem assignedTo_append_nomatch (ps : List HourRec) (r : HourRec) (day : Nat)
    (h : dayIndexOf r ≠ day) :
    assignedTo (ps ++ [r]) day = assignedTo ps day := by
  simp [assignedTo, List.filter_append, h]

theorem pushHour_inv (ps : List HourRec) (acc : List DayAcc)
    (r : HourRec) (h : ForecastService.AccInv ps acc) :
    ForecastService.AccInv (ps ++ [r]) (ForecastService.pushHour acc r) := by
  obtain ⟨hvals, hcover, hinhab, hnd⟩ := h
  unfold ForecastService.pushHour
  by_cases hany : acc.any (fun g => g.day == dayIndexOf r) = true
  · rw [if_pos hany]
    obtain ⟨g0, hg0mem, hg0d⟩ := List.any_eq_true.mp hany
    have hg0d : g0.day = dayIndexOf r := by simpa using hg0d
    set f : ForecastService.DayAcc → ForecastService.DayAcc := fun g =>
      if g.day == dayIndexOf r then
        { g with aqiValues := g.aqiValues ++ [ForecastService.aqiOrDefault r.aqi],
                 hourlyCount := g.hourlyCount + 1 }
      else g with hf
    have hfday : ∀ g, (f g).day = g.day := by
      intro g
      simp only [hf]
      by_cases hg : (g.day == dayIndexOf r) = true
      · rw [if_pos hg]
      · rw [if_neg hg]
    refine ⟨?_, ?_, ?_, ?_⟩
    · intro g' hg'
      obtain ⟨g, hgmem, hgeq⟩ := List.mem_map.mp hg'
      obtain ⟨hv, hc⟩ := hvals g hgmem
      by_cases hg : (g.day == dayIndexOf r) = true
      · have hgd : g.day = dayIndexOf r := by simpa using hg
        have hassign : ForecastService.assignedTo (ps ++ [r]) g.day =
            ForecastService.assignedTo ps g.day ++ [r] :=
          ForecastService.assignedTo_append_match ps r g.day hgd.symm
        subst hgeq
        simp only [hf, if_pos hg]
        constructor
        · show g.aqiValues ++ [ForecastService.aqiOrDefault r.aqi] =
            (ForecastService.assignedTo (ps ++ [r]) g.day).map
              (fun rr => ForecastService.aqiOrDefault rr.aqi)
          rw [hassign, List.map_append, ← hv]
          rfl
        · show g.hourlyCount + 1 =
            (ForecastService.assignedTo (ps ++ [r]) g.day).length
          rw [hassign, List.length_append, ← hc]
          rfl
      · have hgd : g.day ≠ dayIndexOf r := by simpa using hg
        have hassign : ForecastService.assignedTo (ps ++ [r]) g.day =
            ForecastService.assignedTo ps g.day :=
          ForecastService.assignedTo_append_nomatch ps r g.day
            (fun hcc => hgd hcc.symm)
        subst hgeq
        rw [hf]
        simp only [if_neg hg]
        exact ⟨by rw [hassign]; exact hv, by rw [hassign]; exact hc⟩
    · intro r' hr'
      rcases List.mem_append.mp hr' with hr' | hr'
      · obtain ⟨g, hgmem, hgday⟩ := hcover r' hr'
        exact ⟨f g, List.mem_map_of_mem f hgmem, (hfday g).trans hgday⟩
      · have hrr : r' = r := List.mem_singleton.mp hr'
        subst hrr
        exact ⟨f g0, List.mem_map_of_mem f hg0mem, (hfday g0).trans hg0d⟩
    · intro g' hg'
      obtain ⟨g, hgmem, hgeq⟩ := List.mem_map.mp hg'
      obtain ⟨r', hr'mem, hr'day⟩ := hinhab g hgmem
      exact ⟨r', List.mem_append_left _ hr'mem, by rw [hr'day, ← hgeq, hfday]⟩
    · have hsame : (acc.map f).map ForecastService.DayAcc.day =
          acc.map ForecastService.DayAcc.day := by
        rw [List.map_map]
        exact List.map_congr_left (fun g _ => hfday g)
      rw [hsame]
      exact hnd
  · rw [if_neg hany]
    have hnone : ∀ g ∈ acc, g.day ≠ ForecastService.dayIndexOf r := by
      intro g hg hgd
      exact hany (List.any_eq_true.mpr ⟨g, hg, by simp [hgd]⟩)
    have hps_empty : ForecastService.assignedTo ps (ForecastService.dayIndexOf r) = [] := by
      unfold ForecastService.assignedTo
      rw [List.filter_eq_nil_iff]
      intro r' hr'
      intro hr'd
      have hr'd : ForecastService.dayIndexOf r' = ForecastService.dayIndexOf r := by
        simpa using hr'd
      obtain ⟨g, hgmem, hgday⟩ := hcover r' hr'
      exact hnone g hgmem (hgday.trans hr'd)
    refine ⟨?_, ?_, ?_, ?_⟩
    · intro g' hg'
      rcases List.mem_append.mp hg' with hg' | hg'
      · obtain ⟨hv, hc⟩ := hvals g' hg'
        have hassign : ForecastService.assignedTo (ps ++ [r]) g'.day =
            ForecastService.assignedTo ps g'.day :=
          ForecastService.assignedTo_append_nomatch ps r g'.day
            (fun hcc => hnone g' hg' hcc.symm)
        exact ⟨by rw [hassign]; exact hv, by rw [hassign]; exact hc⟩
      · rw [List.mem_singleton] at hg'
        subst hg'
        have hassign :
            ForecastService.assignedTo (ps ++ [r]) (ForecastService.dayIndexOf r) =
            ForecastService.assignedTo ps (ForecastService.dayIndexOf r) ++ [r] :=
          ForecastService.assignedTo_append_match ps r _ rfl
        constructor
        · show [ForecastService.aqiOrDefault r.aqi] =
            (ForecastService.assignedTo (ps ++ [r])
              (ForecastService.dayIndexOf r)).map
                (fun rr => ForecastService.aqiOrDefault rr.aqi)
          rw [hassign, hps_empty]
          rfl
        · show 1 =
            (ForecastService.assignedTo (ps ++ [r])
              (ForecastService.dayIndexOf r)).length
          rw [hassign, hps_empty]
          rfl
    · intro r' hr'
      rcases List.mem_append.mp hr' with hr' | hr'
      · obtain ⟨g, hgmem, hgday⟩ := hcover r' hr'
        exact ⟨g, List.mem_append_left _ hgmem, hgday⟩
      · rw [List.mem_singleton] at hr'
        subst hr'
        exact ⟨_, List.mem_append_right _ (List.mem_singleton_self _), rfl⟩
    · intro g' hg'
      rcases List.mem_append.mp hg' with hg' | hg'
      · obtain ⟨r', hr'mem, hr'day⟩ := hinhab g' hg'
        exact ⟨r', List.mem_append_left _ hr'mem, hr'day⟩
      · rw [List.mem_singleton] at hg'
        subst hg'
        exact ⟨r, List.mem_append_right _ (List.mem_singleton_self _), rfl⟩
    · rw [List.map_append, List.nodup_append]
      refine ⟨hnd, List.nodup_singleton _, ?_⟩
      intro x hx hx'
      have hx' : x = ForecastService.dayIndexOf r := by simpa using hx'
      obtain ⟨g, hgmem, hgday⟩ := List.mem_map.mp hx
      exact hnone g hgmem (hgday.trans hx')

theorem foldl_pushHour_inv (rs : List HourRec) (ps : List HourRec)
    (acc : List DayAcc) (h : ForecastService.AccInv ps acc) :
    ForecastService.AccInv (ps ++ rs) (rs.foldl ForecastService.pushHour acc) := by
  induction rs generalizing ps acc with
  | nil => simpa using h
  | cons r rs ih =>
    have h2 := ih (ps ++ [r]) (ForecastService.pushHour acc r)
      (ForecastService.pushHour_inv ps acc r h)
    simpa [List.append_assoc] using h2

theorem accInv_foldl (records : List HourRec) :
    ForecastService.AccInv records
      (records.foldl ForecastService.pushHour []) := by
  have h0 : ForecastService.AccInv [] ([] : List ForecastService.DayAcc) := by
    refine ⟨?_, ?_, ?_, ?_⟩
    · intro g hg; cases hg
    · intro r hr; cases hr
    · intro g hg; cases hg
    · simp
  simpa using ForecastService.foldl_pushHour_inv records [] [] h0

theorem nodup_lt5_length_le (l : List Nat) (hnd : l.Nodup)
    (hlt : ∀ x ∈ l, x < 5) : l.length ≤ 5 := by
  have h1 : l.toFinset.card = l.length := List.toFinset_card_of_nodup hnd
  have h2 : l.toFinset ⊆ Finset.range 5 := by
    intro x hx
    rw [List.mem_toFinset] at hx
    exact Finset.mem_range.mpr (hlt x hx)
  have h3 := Finset.card_le_card h2
  rw [h1, Finset.card_range] at h3
  exact h3

end ForecastService

/-- Claim C7: a forecast whose hourly records stay within the 120-hour
horizon is reported as (at most) 5 days with a hard-coded totalDays of 5;
the daily aggregation assigns each hourly record with hour index h to day
number floor(h / 24), and each reported day's max, min and (rounded)
average AQI are computed over exactly the records assigned to it (after the
code's falsy-value defaulting aqi or 50). -/
theorem forecast_daily_aggregation (hourlyData : List HourRec)
    (hhor : ∀ r ∈ hourlyData, r.hour < 120) :
    (ForecastService.getForecastByLocationSuccess hourlyData).totalDays = 5 ∧
    (ForecastService.getForecastByLocationSuccess hourlyData).daily.length ≤ 5 ∧
    (∀ r ∈ hourlyData,
      ∃ g ∈ (ForecastService.getForecastByLocationSuccess hourlyData).daily,
        g.day = r.hour / 24) ∧
    (∀ g ∈ (ForecastService.getForecastByLocationSuccess hourlyData).daily,
      g.day < 5 ∧
      g.aqiValues = (hourlyData.filter (fun r => r.hour / 24 == g.day)).map
        (fun r => ForecastService.aqiOrDefault r.aqi) ∧
      g.aqiValues ≠ [] ∧
      g.hourlyCount = g.aqiValues.length ∧
      g.maxAqi = listMax g.aqiValues ∧
      g.minAqi = listMin g.aqiValues ∧
      g.avgAqi = ForecastService.avgRound g.aqiValues) := by
  obtain ⟨hvals, hcover, hinhab, hnd⟩ := ForecastService.accInv_foldl hourlyData
  refine ⟨rfl, ?_, ?_, ?_⟩
  · have hlt : ∀ x ∈ (hourlyData.foldl ForecastService.pushHour []).map
        ForecastService.DayAcc.day, x < 5 := by
      intro x hx
      obtain ⟨g, hg, hgx⟩ := List.mem_map.mp hx
      obtain ⟨r, hr, hrd⟩ := hinhab g hg
      have hh := hhor r hr
      have hx5 : x = r.hour / 24 := by rw [← hgx, ← hrd]; rfl
      omega
    have hle := ForecastService.nodup_lt5_length_le _ hnd hlt
    simpa [ForecastService.getForecastByLocationSuccess,
      ForecastService.transformHourlyToDaily] using hle
  · intro r hr
    obtain ⟨g, hg, hgd⟩ := hcover r hr
    exact ⟨ForecastService.finalizeDay g,
      List.mem_map_of_mem ForecastService.finalizeDay hg, hgd⟩
  · intro g' hg'
    obtain ⟨g, hg, hgeq⟩ := List.mem_map.mp hg'
    obtain ⟨hv, hc⟩ := hvals g hg
    obtain ⟨r, hr, hrd⟩ := hinhab g hg
    subst hgeq
    have hday : ForecastService.dayIndexOf r = g.day := hrd
    have hh := hhor r hr
    refine ⟨?_, ?_, ?_, ?_, rfl, rfl, rfl⟩
    · show g.day < 5
      have : r.hour / 24 = g.day := hday
      omega
    · exact hv
    · show g.aqiValues ≠ []
      have hmem : r ∈ ForecastService.assignedTo hourlyData g.day :=
        List.mem_filter.mpr ⟨hr, by simp [hday]⟩
      have : ForecastService.aqiOrDefault r.aqi ∈ g.aqiValues := by
        rw [hv]
        exact List.mem_map_of_mem _ hmem
      exact List.ne_nil_of_mem this
    · show g.hourlyCount = g.aqiValues.length
      rw [hv, List.length_map]
      exact hc

/-- Witness for forecast_daily_aggregation on four concrete hourly records
(hours 0, 1, 25 and 119, one of them with the falsy AQI 0). -/
theorem forecast_daily_aggregation_witness :
    (ForecastService.getForecastByLocationSuccess
      [⟨0, 30⟩, ⟨1, 0⟩, ⟨25, 60⟩, ⟨119, 45⟩]).totalDays = 5 ∧
    (ForecastService.getForecastByLocationSuccess
      [⟨0, 30⟩, ⟨1, 0⟩, ⟨25, 60⟩, ⟨119, 45⟩]).daily.length ≤ 5 :=
  ⟨(forecast_daily_aggregation [⟨0, 30⟩, ⟨1, 0⟩, ⟨25, 60⟩, ⟨119, 45⟩]
      (by decide)).1,
   (forecast_daily_aggregation [⟨0, 30⟩, ⟨1, 0⟩, ⟨25, 60⟩, ⟨119, 45⟩]
      (by decide)).2.1⟩

theorem sum_map_div (l : List ℚ) (t : ℚ) :
    (l.map (fun w => w / t)).sum = l.sum / t := by
  induction l with
  | nil => simp
  | cons x xs ih => simp [List.sum_cons, add_div, ih]

/-- Claim C4: for every non-empty subset of contributing sources with
positive base weights, the renormalized source weights sum to 1.0 within
1e-9 (exactly 1, in fact). -/
theorem fusion_weights_sum_to_one (present : List (String × ℚ))
    (hne : present ≠ []) (hpos : ∀ sw ∈ present, 0 < sw.2) :
    |(renormalizedWeights present).sum - 1| ≤ 1 / 1000000000 := by
  have hmapne : present.map Prod.snd ≠ [] := by
    simpa using hne
  have hsum : 0 < (present.map Prod.snd).sum := by
    refine List.sum_pos _ ?_ hmapne
    intro x hx
    obtain ⟨sw, hsw, hxeq⟩ := List.mem_map.mp hx
    exact hxeq ▸ hpos sw hsw
  have h1 : (renormalizedWeights present).sum =
      (present.map Prod.snd).sum / (present.map Prod.snd).sum := by
    unfold renormalizedWeights
    rw [← sum_map_div (present.map Prod.snd) ((present.map Prod.snd).sum)]
    rw [List.map_map]
    rfl
  rw [h1, div_self (ne_of_gt hsum)]
  norm_num

/-- Witness for fusion_weights_sum_to_one on the two-source subset
AirNow with base weight 1/2 and WAQI with base weight 3/10. -/
theorem fusion_weights_sum_to_one_witness :
    |(renormalizedWeights [("AirNow", 1/2), ("WAQI", 3/10)]).sum - 1| ≤
      1 / 1000000000 :=
  fusion_weights_sum_to_one [("AirNow", 1/2), ("WAQI", 3/10)]
    (by decide)
    (by
      intro sw hsw
      rcases List.mem_cons.mp hsw with h | h
      · rw [h]; norm_num
      · rw [List.mem_singleton.mp h]; norm_num)

/-- Claim C5: under the once_daily policy a crossing produces an intent
only when last_sent_at is more than 24 hours in the past; two crossings 3
hours apart yield exactly one intent and two crossings 25 hours apart yield
two. -/
theorem once_daily_dedup :
    (∀ last now : Int,
      onceDailyPermits (some last) now = true → now - last > 24) ∧
    (runOnceDaily none [0, 3]).length = 1 ∧
    (runOnceDaily none [0, 25]).length = 2 := by
  refine ⟨?_, by decide, by decide⟩
  intro last now h
  simpa [onceDailyPermits] using h

/-- Witness for once_daily_dedup: a permitted send at time 30 after a send
at time 5 really is more than 24 hours later. -/
theorem once_daily_dedup_witness : (30 : Int) - 5 > 24 :=
  once_daily_dedup.1 5 30 (by decide)

/-- Claim C6: during the quiet-hours window (default 22:00 to 07:00) a
crossing whose severity is below the emergency tier is suppressed and the
phase stays Armed, while a hazardous crossing still fires and emits an
intent. -/
theorem quiet_hours_gating (nowMin : Nat) (cat : AQICategoryLevel)
    (hq : inQuietWindow (22 * 60) (7 * 60) nowMin = true) :
    (bypassesQuietHours cat = false →
      evalArmedStep true true (inQuietWindow (22 * 60) (7 * 60) nowMin) cat =
        (AlertPhase.Armed, false)) ∧
    evalArmedStep true true (inQuietWindow (22 * 60) (7 * 60) nowMin)
      AQICategoryLevel.hazardous = (AlertPhase.Fired, true) := by
  rw [hq]
  constructor
  · intro hb
    simp [evalArmedStep, hb]
  · simp [evalArmedStep, bypassesQuietHours]

/-- Witness for quiet_hours_gating at 23:00: moderate is suppressed,
hazardous fires. -/
theorem quiet_hours_gating_witness :
    evalArmedStep true true (inQuietWindow (22 * 60) (7 * 60) (23 * 60))
      AQICategoryLevel.moderate = (AlertPhase.Armed, false) ∧
    evalArmedStep true true (inQuietWindow (22 * 60) (7 * 60) (23 * 60))
      AQICategoryLevel.hazardous = (AlertPhase.Fired, true) :=
  ⟨(quiet_hours_gating (23 * 60) AQICategoryLevel.moderate (by decide)).1 rfl,
   (quiet_hours_gating (23 * 60) AQICategoryLevel.moderate (by decide)).2⟩

/-- Claim C8: the four independently implemented category functions
(aqiUtils.getAQIStatus and getAQICategory in AQIDataService,
UnifiedAQIService and ForecastService) agree on every AQI value. -/
theorem category_functions_agree (v : Int) :
    aqiUtils.getAQIStatus v = AQIDataService.getAQICategory v ∧
    AQIDataService.getAQICategory v = UnifiedAQIService.getAQICategory v ∧
    UnifiedAQIService.getAQICategory v = ForecastService.getAQICategory v :=
  ⟨rfl, rfl, rfl⟩

end SaferSkies
